import Mathlib

/-!
Verification of the screenshot-editor browser extension: the full-page
capture/stitch pipeline (entrypoints/background.ts) and the editor
document/history model (entrypoints/editor/Editor.tsx), shallowly embedded
from the TypeScript sources.  JavaScript numbers are modelled as exact
rationals; `Math.round` / `Math.ceil` are modelled explicitly where the
source applies them.
-/

namespace ScreenshotEditor

/-- JavaScript `Math.round` on an exact rational: round half toward positive
infinity. -/
def jsRound (q : ℚ) : ℤ := ⌊q + 1 / 2⌋

/-- JavaScript `Math.ceil` on an exact rational. -/
def jsCeil (q : ℚ) : ℤ := ⌈q⌉

@[simp] theorem jsRound_intCast (n : ℤ) : jsRound (n : ℚ) = n := by
  rw [jsRound, add_comm, Int.floor_add_int]
  norm_num

@[simp] theorem jsCeil_intCast (n : ℤ) : jsCeil (n : ℚ) = n := by
  rw [jsCeil, Int.ceil_intCast]

/-! ## FrameStitcher (background.ts, `stitchImages`) -/

/-- `MAX_CANVAS_HEIGHT` safety cap of `stitchImages` (background.ts 404),
in device pixels. -/
def MAX_CANVAS_HEIGHT : ℤ := 30000

/-- One `drawImage` call issued by the drawing loop of `stitchImages`:
skip the top `srcY` source rows of the frame bitmap and draw `height` rows
starting at output row `destY`. -/
structure DrawOp where
  srcY : ℤ
  destY : ℤ
  height : ℤ
deriving DecidableEq, Repr

/-- The subsequent-frame arm of the drawing loop of `stitchImages`
(background.ts 430-452), including the `scrollY >= MAX_CANVAS_HEIGHT` break
(line 424).  `prevY` / `y` are the recorded actual scroll offsets (CSS px) of
the previous and current capture, `dpr` the device pixel ratio, and `vpPx`
the frame bitmap height `bitmaps[0].height` (device px). -/
def stitchRest (dpr : ℚ) (vpPx : ℤ) : ℚ → List ℚ → List DrawOp
  | _, [] => []
  | prevY, y :: rest =>
    let scrollY : ℚ := y * dpr
    if (MAX_CANVAS_HEIGHT : ℚ) ≤ scrollY then []
    else
      let prevScrollY : ℚ := prevY * dpr
      let prevEndY : ℤ := jsRound (prevScrollY + (vpPx : ℚ))
      let overlap : ℤ := max 0 (jsCeil ((prevEndY : ℚ) - scrollY))
      let drawY : ℤ := prevEndY
      let availableHeight : ℤ := jsRound ((vpPx : ℚ) - (overlap : ℚ))
      let drawHeight : ℤ :=
        min availableHeight (jsRound ((MAX_CANVAS_HEIGHT : ℚ) - (drawY : ℚ)))
      (if 0 < drawHeight then [DrawOp.mk overlap drawY drawHeight] else []) ++
        stitchRest dpr vpPx y rest

/-- The complete drawing loop of `stitchImages` (background.ts 419-453): the
first frame is drawn in full at output row 0 (clamped to the safety cap),
every later frame is anchored at the end of the previous frame by
`stitchRest`.  The argument list holds the recorded actual scroll offsets of
the captured frames, in capture order. -/
def stitchPlan (dpr : ℚ) (vpPx : ℤ) : List ℚ → List DrawOp
  | [] => []
  | y :: rest =>
    if (MAX_CANVAS_HEIGHT : ℚ) ≤ y * dpr then []
    else DrawOp.mk 0 0 (min vpPx MAX_CANVAS_HEIGHT) :: stitchRest dpr vpPx y rest

/-- Output canvas height of `stitchImages` (background.ts 405):
`Math.min(Math.ceil(opts.totalHeight * opts.dpr), MAX_CANVAS_HEIGHT)`. -/
def totalPixelHeight (totalHeight dpr : ℚ) : ℤ :=
  min (jsCeil (totalHeight * dpr)) MAX_CANVAS_HEIGHT

/-- `contiguousFrom s ops` checks that the destination row intervals of `ops`
tile `[s, s + Σ heights)` exactly: every op draws at least one row and starts
exactly where the previous one ended — no duplicated row range, no gap row
range. -/
def contiguousFrom : ℤ → List DrawOp → Bool
  | _, [] => true
  | s, op :: rest =>
    decide (op.destY = s) && decide (0 < op.height) &&
      contiguousFrom (s + op.height) rest

/-- One unfolding of `stitchRest` under the hypotheses relevant to seam-free
stitching: the device-pixel offsets of the previous and current frame are the
integers `a < b`, the step is at most one frame height, and the current frame
still fits under the safety cap. -/
theorem stitchRest_cons_eq (dpr : ℚ) (vpPx : ℤ) (prevY y : ℚ) (rest : List ℚ)
    (a b : ℤ) (ha : (a : ℚ) = prevY * dpr) (hb : (b : ℚ) = y * dpr)
    (hab : a < b) (hstep : b - a ≤ vpPx) (hcapb : b + vpPx ≤ MAX_CANVAS_HEIGHT)
    (hvp : 0 < vpPx) :
    stitchRest dpr vpPx prevY (y :: rest) =
      DrawOp.mk (a + vpPx - b) (a + vpPx) (b - a) :: stitchRest dpr vpPx y rest := by
  have hscroll : ¬ (MAX_CANVAS_HEIGHT : ℚ) ≤ y * dpr := by
    rw [← hb]
    have : b < MAX_CANVAS_HEIGHT := by omega
    exact_mod_cast not_le.mpr this
  have e1 : jsRound (prevY * dpr + (vpPx : ℚ)) = a + vpPx := by
    rw [← ha, show (a : ℚ) + (vpPx : ℚ) = ((a + vpPx : ℤ) : ℚ) by push_cast; ring,
      jsRound_intCast]
  have e2 : jsCeil (((a + vpPx : ℤ) : ℚ) - y * dpr) = a + vpPx - b := by
    rw [← hb, show ((a + vpPx : ℤ) : ℚ) - (b : ℚ) = ((a + vpPx - b : ℤ) : ℚ) by
      push_cast; ring, jsCeil_intCast]
  have e3 : max (0 : ℤ) (a + vpPx - b) = a + vpPx - b := max_eq_right (by omega)
  have e4 : jsRound ((vpPx : ℚ) - ((a + vpPx - b : ℤ) : ℚ)) = b - a := by
    rw [show (vpPx : ℚ) - ((a + vpPx - b : ℤ) : ℚ) = ((b - a : ℤ) : ℚ) by
      push_cast; ring, jsRound_intCast]
  have e5 : jsRound ((MAX_CANVAS_HEIGHT : ℚ) - ((a + vpPx : ℤ) : ℚ))
      = MAX_CANVAS_HEIGHT - (a + vpPx) := by
    rw [show (MAX_CANVAS_HEIGHT : ℚ) - ((a + vpPx : ℤ) : ℚ)
        = ((MAX_CANVAS_HEIGHT - (a + vpPx) : ℤ) : ℚ) by push_cast; ring, jsRound_intCast]
  have e6 : min (b - a) (MAX_CANVAS_HEIGHT - (a + vpPx)) = b - a := min_eq_left (by omega)
  simp only [stitchRest]
  rw [if_neg hscroll, e1, e2, e3, e4, e5, e6, if_pos (by omega : (0 : ℤ) < b - a)]
  rfl

/-- Behaviour of `stitchRest` along a whole run: one draw op per frame, the
destination intervals are contiguous starting at the end of the previous
frame, and each op obeys the anchoring/overlap formulas. -/
theorem stitchRest_spec (dpr : ℚ) (vpPx : ℤ) (hdpr : 0 < dpr) (hvp : 0 < vpPx) :
    ∀ (ys : List ℚ) (prevY : ℚ),
      (prevY * dpr).den = 1 →
      (∀ y ∈ ys, (y * dpr).den = 1) →
      List.Chain (· < ·) prevY ys →
      List.Chain (fun u v => (v - u) * dpr ≤ (vpPx : ℚ)) prevY ys →
      (∀ y ∈ ys, y * dpr + (vpPx : ℚ) ≤ (MAX_CANVAS_HEIGHT : ℚ)) →
      (stitchRest dpr vpPx prevY ys).length = ys.length ∧
      contiguousFrom ((prevY * dpr).num + vpPx) (stitchRest dpr vpPx prevY ys) = true ∧
      (∀ i op yPrev y,
        (stitchRest dpr vpPx prevY ys).get? i = some op →
        (prevY :: ys).get? i = some yPrev →
        ys.get? i = some y →
        op.destY = jsRound (yPrev * dpr + (vpPx : ℚ)) ∧
        (op.srcY : ℚ) = max 0 ((op.destY : ℚ) - y * dpr) ∧
        op.height = vpPx - op.srcY) := by
  intro ys
  induction ys with
  | nil =>
    intro prevY _ _ _ _ _
    refine ⟨rfl, rfl, ?_⟩
    intro i op yPrev y hop _ _
    simp [stitchRest] at hop
  | cons y rest ih =>
    intro prevY hdenPrev hdens hmono hstep hcap
    have hdenY : (y * dpr).den = 1 := hdens y (List.mem_cons_self y rest)
    set a : ℤ := (prevY * dpr).num with haDef
    set b : ℤ := (y * dpr).num with hbDef
    have ha : (a : ℚ) = prevY * dpr := Rat.coe_int_num_of_den_eq_one hdenPrev
    have hb : (b : ℚ) = y * dpr := Rat.coe_int_num_of_den_eq_one hdenY
    have hlt : prevY < y := (List.chain_cons.mp hmono).1
    have hab : a < b := by
      have : prevY * dpr < y * dpr := by
        exact mul_lt_mul_of_pos_right hlt hdpr
      rw [← ha, ← hb] at this
      exact_mod_cast this
    have hstepO : b - a ≤ vpPx := by
      have h1 : (y - prevY) * dpr ≤ (vpPx : ℚ) := (List.chain_cons.mp hstep).1
      have h2 : (b : ℚ) - (a : ℚ) ≤ (vpPx : ℚ) := by
        rw [ha, hb]; linarith [h1, sub_mul y prevY dpr]
      exact_mod_cast h2
    have hcapb : b + vpPx ≤ MAX_CANVAS_HEIGHT := by
      have h1 : y * dpr + (vpPx : ℚ) ≤ (MAX_CANVAS_HEIGHT : ℚ) :=
        hcap y (List.mem_cons_self y rest)
      rw [← hb] at h1
      exact_mod_cast h1
    have hEq := stitchRest_cons_eq dpr vpPx prevY y rest a b ha hb hab hstepO hcapb hvp
    obtain ⟨ihLen, ihCont, ihIdx⟩ :=
      ih y hdenY (fun z hz => hdens z (List.mem_cons_of_mem y hz))
        (List.chain_cons.mp hmono).2 (List.chain_cons.mp hstep).2
        (fun z hz => hcap z (List.mem_cons_of_mem y hz))
    refine ⟨?_, ?_, ?_⟩
    · rw [hEq]; simp [ihLen]
    · rw [hEq]
      rw [← hbDef] at ihCont
      simp only [contiguousFrom]
      rw [show a + vpPx + (b - a) = b + vpPx from by ring, ihCont]
      simp [hab]
    · intro i op yPrev z hop hyPrev hz
      match i with
      | 0 =>
        rw [hEq] at hop
        simp only [List.get?] at hop hyPrev hz
        obtain rfl : DrawOp.mk (a + vpPx - b) (a + vpPx) (b - a) = op := by
          exact Option.some.inj hop
        obtain rfl : prevY = yPrev := Option.some.inj hyPrev
        obtain rfl : y = z := Option.some.inj hz
        have e1 : jsRound (prevY * dpr + (vpPx : ℚ)) = a + vpPx := by
          rw [← ha, show (a : ℚ) + (vpPx : ℚ) = ((a + vpPx : ℤ) : ℚ) by push_cast; ring,
            jsRound_intCast]
        refine ⟨?_, ?_, ?_⟩
        · show a + vpPx = jsRound (prevY * dpr + (vpPx : ℚ))
          exact e1.symm
        · show ((a + vpPx - b : ℤ) : ℚ) = max 0 (((a + vpPx : ℤ) : ℚ) - y * dpr)
          rw [← hb,
            show ((a + vpPx : ℤ) : ℚ) - (b : ℚ) = ((a + vpPx - b : ℤ) : ℚ) by push_cast; ring,
            max_eq_right (by exact_mod_cast (by omega : (0 : ℤ) ≤ a + vpPx - b))]
        · show b - a = vpPx - (a + vpPx - b)
          ring
      | Nat.succ j =>
        rw [hEq] at hop
        exact ihIdx j op yPrev z hop hyPrev hz

/-- C1: stitching is seam-free.  For a capture run whose recorded actual
offsets start at 0, are strictly increasing with integral device-pixel
values, advance by at most one frame height per frame, and fit under the
canvas cap, `stitchImages` draws frame 0 in full at output row 0, draws every
subsequent frame i at output row `round(o[i-1]*dpr + viewportPixelHeight)`
skipping its top `overlap = max(0, prevEndY - o[i]*dpr)` source rows and
drawing the remaining `viewportPixelHeight - overlap` rows, and the drawn
destination row intervals tile the output contiguously — no duplicated row
range and no gap row range. -/
theorem stitchImages_seam_free (dpr : ℚ) (vpPx : ℤ) (y0 : ℚ) (ys : List ℚ)
    (hdpr : 0 < dpr) (hvp : 0 < vpPx) (hy0 : y0 = 0)
    (hint : ∀ y ∈ y0 :: ys, (y * dpr).den = 1)
    (hmono : List.Chain (· < ·) y0 ys)
    (hstep : List.Chain (fun u v => (v - u) * dpr ≤ (vpPx : ℚ)) y0 ys)
    (hcap : ∀ y ∈ y0 :: ys, y * dpr + (vpPx : ℚ) ≤ (MAX_CANVAS_HEIGHT : ℚ)) :
    (stitchPlan dpr vpPx (y0 :: ys)).length = (y0 :: ys).length ∧
    (stitchPlan dpr vpPx (y0 :: ys)).get? 0 = some (DrawOp.mk 0 0 vpPx) ∧
    contiguousFrom 0 (stitchPlan dpr vpPx (y0 :: ys)) = true ∧
    ∀ i op yPrev y,
      (stitchPlan dpr vpPx (y0 :: ys)).get? (i + 1) = some op →
      (y0 :: ys).get? i = some yPrev →
      (y0 :: ys).get? (i + 1) = some y →
      op.destY = jsRound (yPrev * dpr + (vpPx : ℚ)) ∧
      (op.srcY : ℚ) = max 0 ((op.destY : ℚ) - y * dpr) ∧
      op.height = vpPx - op.srcY := by
  subst hy0
  have h0dpr : (0 : ℚ) * dpr = 0 := by ring
  have hden0 : ((0 : ℚ) * dpr).den = 1 := by rw [h0dpr]; rfl
  have hvpM : vpPx ≤ MAX_CANVAS_HEIGHT := by
    have h := hcap 0 (List.mem_cons_self _ _)
    rw [h0dpr, zero_add] at h
    exact_mod_cast h
  have hcond : ¬ (MAX_CANVAS_HEIGHT : ℚ) ≤ 0 * dpr := by
    rw [h0dpr]; norm_num [MAX_CANVAS_HEIGHT]
  have hplan : stitchPlan dpr vpPx (0 :: ys)
      = DrawOp.mk 0 0 (min vpPx MAX_CANVAS_HEIGHT) :: stitchRest dpr vpPx 0 ys := by
    simp only [stitchPlan]
    rw [if_neg hcond]
  obtain ⟨sLen, sCont, sIdx⟩ := stitchRest_spec dpr vpPx hdpr hvp ys 0 hden0
    (fun z hz => hint z (List.mem_cons_of_mem _ hz)) hmono hstep
    (fun z hz => hcap z (List.mem_cons_of_mem _ hz))
  have hmin : min vpPx MAX_CANVAS_HEIGHT = vpPx := min_eq_left hvpM
  refine ⟨?_, ?_, ?_, ?_⟩
  · rw [hplan]; simp [sLen]
  · rw [hplan, hmin]; rfl
  · rw [hplan, hmin]
    have hnum0 : ((0 : ℚ) * dpr).num = 0 := by rw [h0dpr]; rfl
    rw [hnum0, zero_add] at sCont
    simp only [contiguousFrom]
    rw [show (0 : ℤ) + (DrawOp.mk 0 0 vpPx).height = vpPx from zero_add vpPx, sCont]
    simp [hvp]
  · intro i op yPrev y hop hyPrev hy
    rw [hplan] at hop
    exact sIdx i op yPrev y hop hyPrev hy

/-- Witness for C1 — the spec scenario: offsets [0, 800, 1550], viewport
height 800, dpr 1, page height 2350.  Frame 1 is drawn in full at row 0,
frame 2 at row 800, frame 3 anchored at row 1600 = round(800*1 + 800) with
its top 50 = max(0, 1600 - 1550*1) rows skipped, the drawn intervals tile
[0, 2350), and the output canvas height is 2350. -/
theorem stitchImages_seam_free_witness :
    ((0 : ℚ) < 1 ∧ (0 : ℤ) < 800 ∧
      List.Chain (· < ·) (0 : ℚ) [800, 1550] ∧
      (∀ y ∈ [(0 : ℚ), 800, 1550], y * 1 + ((800 : ℤ) : ℚ) ≤ (MAX_CANVAS_HEIGHT : ℚ))) ∧
    stitchPlan 1 800 [0, 800, 1550] =
      [DrawOp.mk 0 0 800, DrawOp.mk 0 800 800, DrawOp.mk 50 1600 750] ∧
    contiguousFrom 0 (stitchPlan 1 800 [0, 800, 1550]) = true ∧
    totalPixelHeight 2350 1 = 2350 := by
  refine ⟨⟨by norm_num, by norm_num, by norm_num [List.chain_cons], by norm_num [MAX_CANVAS_HEIGHT]⟩,
    by norm_num [stitchPlan, stitchRest, jsRound, jsCeil, MAX_CANVAS_HEIGHT], ?_,
    by norm_num [totalPixelHeight, jsCeil, MAX_CANVAS_HEIGHT]⟩
  exact (stitchImages_seam_free 1 800 0 [800, 1550] (by norm_num) (by norm_num) rfl
    (by intro y hy; fin_cases hy <;> norm_num) (by norm_num [List.chain_cons])
    (by norm_num [List.chain_cons]) (by norm_num [MAX_CANVAS_HEIGHT])).2.2.1

/-! ## ScrollCapturePipeline (background.ts, `captureFullPage`) -/

/-- The DOM state of the target page that `captureFullPage` mutates: the
current scroll position, the handles of elements carrying the
`wxt-screenshot-hidden` marker class, and whether the
`screenshot-hide-floating` style element is currently injected. -/
structure PageDom where
  scrollX : ℚ
  scrollY : ℚ
  hidden : List ℕ
  styleInjected : Bool
deriving DecidableEq, Repr

/-- The static environment of one capture run: how far the page can scroll
(the browser clamps `window.scrollTo`), which element handles the
fixed/sticky heuristic of `hideFloatingElements` matches, the reported page
metrics, and which external calls succeed (`captureOk i` is whether
`chrome.tabs.captureVisibleTab` succeeds at iteration `i`, `stitchOk`
whether the output canvas can be allocated). -/
structure PageEnv where
  maxScrollY : ℚ
  floating : List ℕ
  metricsOk : Bool
  scrollHeight : ℚ
  clientHeight : ℚ
  captureOk : ℕ → Bool
  stitchOk : Bool

/-- `window.scrollTo(0, y)` as run by the frame loop: the horizontal position
becomes 0 and the vertical position is clamped by the page. -/
def scrollTo (page : PageEnv) (dom : PageDom) (y : ℚ) : PageDom :=
  { dom with scrollX := 0, scrollY := max 0 (min y page.maxScrollY) }

/-- `hideFloatingElements` (background.ts 317-387): inject the hide style
(idempotent — guarded by getElementById) and add the marker class to every
matched element (idempotent — classList.add). -/
def hideFloating (page : PageEnv) (dom : PageDom) : PageDom :=
  { dom with styleInjected := true, hidden := dom.hidden ∪ page.floating }

/-- The finally-block of `captureFullPage` (background.ts 295-314): remove
the injected style element, strip the marker class from every hidden element,
and restore the original scroll position. -/
def restoreDom (origX origY : ℚ) (_dom : PageDom) : PageDom :=
  { scrollX := origX, scrollY := origY, hidden := [], styleInjected := false }

inductive CaptureError
  | noMetrics
  | captureFailed
  | noFrames
  | imageTooLarge
deriving DecidableEq, Repr

/-- The frame-capture while-loop of `captureFullPage` (background.ts
229-283): while the current target offset is below the scrollable height,
scroll to it, record the actual (clamped) offset, hide floating elements
before the capture from iteration 2 on, capture the viewport (aborting the
loop on a capture/rate-limit error), hide floating elements right after the
first capture, advance the target by one viewport height, and break once
`iteration > 50`. -/
def frameLoop (page : PageEnv) :
    ℚ → ℕ → List ℚ → PageDom → Except CaptureError (List ℚ) × PageDom
  | currentY, iteration, captures, dom =>
    if currentY < page.scrollHeight then
      let iter := iteration + 1
      let dom1 := scrollTo page dom currentY
      let actualScrollY := dom1.scrollY
      let dom2 := if 1 < iter then hideFloating page dom1 else dom1
      if page.captureOk iter = true then
        let captures1 := captures ++ [actualScrollY]
        let dom3 := if iter = 1 then hideFloating page dom2 else dom2
        if 50 < iter then (Except.ok captures1, dom3)
        else frameLoop page (currentY + page.clientHeight) iter captures1 dom3
      else (Except.error CaptureError.captureFailed, dom2)
    else (Except.ok captures, dom)
  termination_by _cY iteration _caps _dom => 51 - iteration

/-- `captureFullPage` (background.ts 196-315): read the page metrics (this
happens before the try-block — if it fails the function throws with the page
untouched), remember the original scroll position, run the frame loop and the
stitch inside the try-block, and run the restoration in the finally-block on
every exit path. -/
def captureFullPage (page : PageEnv) (dom : PageDom) :
    Except CaptureError (List ℚ) × PageDom :=
  if page.metricsOk = false then (Except.error CaptureError.noMetrics, dom)
  else
    let origX := dom.scrollX
    let origY := dom.scrollY
    let body :=
      match frameLoop page 0 0 [] dom with
      | (Except.error e, d) => (Except.error e, d)
      | (Except.ok caps, d) =>
        if caps.length = 0 then (Except.error CaptureError.noFrames, d)
        else if page.stitchOk then (Except.ok caps, d)
        else (Except.error CaptureError.imageTooLarge, d)
    (body.1, restoreDom origX origY body.2)

/-- C4: on every exit path of the full-page capture — normal completion, a
failed metrics injection (which throws before the page is mutated), a failed
or rate-limited frame capture, a stitching failure, or the zero-frames error
— the capture finishes with the page's hide-state and scroll position
restored: the injected hide style is gone, no element still carries the
hidden marker, and the scroll position equals the original one. -/
theorem captureFullPage_restores_page (page : PageEnv) (dom : PageDom)
    (hstyle : dom.styleInjected = false) (hhidden : dom.hidden = []) :
    (captureFullPage page dom).2.styleInjected = false ∧
    (captureFullPage page dom).2.hidden = [] ∧
    (captureFullPage page dom).2.scrollX = dom.scrollX ∧
    (captureFullPage page dom).2.scrollY = dom.scrollY := by
  unfold captureFullPage
  by_cases hm : page.metricsOk = false
  · rw [if_pos hm]
    exact ⟨hstyle, hhidden, rfl, rfl⟩
  · rw [if_neg hm]
    exact ⟨rfl, rfl, rfl, rfl⟩

/-- A concrete page environment on which every external call succeeds. -/
def c9Page : PageEnv :=
  { maxScrollY := 0, floating := [], metricsOk := true, scrollHeight := 1,
    clientHeight := 2, captureOk := fun _ => true, stitchOk := true }

/-- A concrete initial page DOM with a nonzero scroll position. -/
def c9Dom : PageDom := { scrollX := 3, scrollY := 7, hidden := [], styleInjected := false }

/-- Witness for C4 at a concrete page and DOM. -/
theorem captureFullPage_restores_page_witness :
    c9Dom.styleInjected = false ∧ c9Dom.hidden = [] ∧
    (captureFullPage c9Page c9Dom).2.styleInjected = false ∧
    (captureFullPage c9Page c9Dom).2.hidden = [] ∧
    (captureFullPage c9Page c9Dom).2.scrollX = c9Dom.scrollX ∧
    (captureFullPage c9Page c9Dom).2.scrollY = c9Dom.scrollY := by
  obtain ⟨a, b, c, d⟩ := captureFullPage_restores_page c9Page c9Dom rfl rfl
  exact ⟨rfl, rfl, a, b, c, d⟩

/-- One-step unfolding of `frameLoop`: loop exit when the target offset has
reached the scrollable height. -/
theorem frameLoop_exit (page : PageEnv) (cY : ℚ) (iteration : ℕ) (caps : List ℚ)
    (dom : PageDom) (h : ¬ cY < page.scrollHeight) :
    frameLoop page cY iteration caps dom = (Except.ok caps, dom) := by
  rw [frameLoop, if_neg h]

/-- The page DOM after the body of one loop iteration: scroll, then the
pre-capture hide (iterations 2+), then the post-first-capture hide. -/
def loopDom (page : PageEnv) (dom : PageDom) (cY : ℚ) (iteration : ℕ) : PageDom :=
  if iteration + 1 = 1
    then hideFloating page
      (if 1 < iteration + 1 then hideFloating page (scrollTo page dom cY)
        else scrollTo page dom cY)
    else if 1 < iteration + 1 then hideFloating page (scrollTo page dom cY)
      else scrollTo page dom cY

/-- One-step unfolding of `frameLoop`: a successful capture below the
iteration cap recurses with the actual offset recorded. -/
theorem frameLoop_step (page : PageEnv) (cY : ℚ) (iteration : ℕ) (caps : List ℚ)
    (dom : PageDom) (h1 : cY < page.scrollHeight)
    (h2 : page.captureOk (iteration + 1) = true) (h3 : ¬ 50 < iteration + 1) :
    frameLoop page cY iteration caps dom =
      frameLoop page (cY + page.clientHeight) (iteration + 1)
        (caps ++ [(scrollTo page dom cY).scrollY]) (loopDom page dom cY iteration) := by
  conv_lhs => rw [frameLoop]
  rw [if_pos h1]
  dsimp only
  rw [if_pos h2, if_neg h3]
  rfl

/-- One-step unfolding of `frameLoop`: the body of iteration 51 captures its
frame and then breaks on the `iteration > 50` check. -/
theorem frameLoop_break (page : PageEnv) (cY : ℚ) (iteration : ℕ) (caps : List ℚ)
    (dom : PageDom) (h1 : cY < page.scrollHeight)
    (h2 : page.captureOk (iteration + 1) = true) (h3 : 50 < iteration + 1) :
    frameLoop page cY iteration caps dom =
      (Except.ok (caps ++ [(scrollTo page dom cY).scrollY]),
        loopDom page dom cY iteration) := by
  conv_lhs => rw [frameLoop]
  rw [if_pos h1]
  dsimp only
  rw [if_pos h2, if_pos h3]
  rfl

/-- One-step unfolding of `frameLoop`: a failed or rate-limited capture
aborts the loop with an error. -/
theorem frameLoop_capture_fail (page : PageEnv) (cY : ℚ) (iteration : ℕ)
    (caps : List ℚ) (dom : PageDom) (h1 : cY < page.scrollHeight)
    (h2 : ¬ page.captureOk (iteration + 1) = true) :
    frameLoop page cY iteration caps dom =
      (Except.error CaptureError.captureFailed,
        if 1 < iteration + 1 then hideFloating page (scrollTo page dom cY)
          else scrollTo page dom cY) := by
  conv_lhs => rw [frameLoop]
  rw [if_pos h1]
  dsimp only
  rw [if_neg h2]

/-- The frame loop hands back at most `51 - iteration` captures beyond those
it was given, provided it is entered with `iteration ≤ 50` (as every reachable
call is). -/
theorem frameLoop_length_le (page : PageEnv) :
    ∀ (n : ℕ) (cY : ℚ) (iteration : ℕ) (caps : List ℚ) (dom : PageDom)
      (caps' : List ℚ) (dom' : PageDom),
      iteration ≤ 50 → 51 - iteration ≤ n →
      frameLoop page cY iteration caps dom = (Except.ok caps', dom') →
      caps'.length ≤ caps.length + (51 - iteration) := by
  intro n
  induction n with
  | zero =>
    intro cY iteration caps dom caps' dom' h50 hn _
    omega
  | succ n ih =>
    intro cY iteration caps dom caps' dom' h50 hn h
    by_cases h1 : cY < page.scrollHeight
    · by_cases h2 : page.captureOk (iteration + 1) = true
      · by_cases h3 : 50 < iteration + 1
        · rw [frameLoop_break page cY iteration caps dom h1 h2 h3] at h
          simp only [Prod.mk.injEq, Except.ok.injEq] at h
          obtain ⟨rfl, -⟩ := h
          simp only [List.length_append, List.length_singleton]
          omega
        · rw [frameLoop_step page cY iteration caps dom h1 h2 h3] at h
          have hrec := ih (cY + page.clientHeight) (iteration + 1) _ _ caps' dom'
            (by omega) (by omega) h
          simp only [List.length_append, List.length_singleton] at hrec
          omega
      · rw [frameLoop_capture_fail page cY iteration caps dom h1 h2] at h
        simp at h
    · rw [frameLoop_exit page cY iteration caps dom h1] at h
      simp only [Prod.mk.injEq, Except.ok.injEq] at h
      obtain ⟨rfl, -⟩ := h
      omega

/-- C9 (amended): the frame-capture loop terminates for every input — it
iterates while the target offset is below the scrollable height, advancing
the target by one viewport height per iteration — and the `iteration > 50`
break bounds it to at most 51 iterations, so a completed full-page capture
returns at most 51 frames (the break fires only after the body of iteration
51 has already captured its frame, so runs of exactly 51 frames exist). -/
theorem captureFullPage_frame_bound (page : PageEnv) (dom : PageDom)
    (caps : List ℚ) (dom' : PageDom)
    (h : captureFullPage page dom = (Except.ok caps, dom')) :
    caps.length ≤ 51 := by
  unfold captureFullPage at h
  by_cases hm : page.metricsOk = false
  · rw [if_pos hm] at h
    simp at h
  · rw [if_neg hm] at h
    rcases hfl : frameLoop page 0 0 [] dom with ⟨res, d⟩
    rw [hfl] at h
    cases res with
    | error e => simp at h
    | ok caps0 =>
      dsimp only at h
      by_cases hz : caps0.length = 0
      · rw [if_pos hz] at h
        simp at h
      · rw [if_neg hz] at h
        by_cases hs : page.stitchOk = true
        · rw [if_pos hs] at h
          simp only [Prod.mk.injEq, Except.ok.injEq] at h
          obtain ⟨rfl, -⟩ := h
          have := frameLoop_length_le page 51 0 0 [] dom caps0 d (by omega) (by omega) hfl
          simpa using this
        · rw [if_neg hs] at h
          simp at h

/-- A concrete one-frame evaluation of the pipeline, used to discharge the
hypothesis of the C9 bound. -/
theorem captureFullPage_one_frame :
    captureFullPage c9Page c9Dom =
      (Except.ok [(0 : ℚ)], restoreDom 3 7 (loopDom c9Page c9Dom 0 0)) := by
  have hfl : frameLoop c9Page 0 0 [] c9Dom =
      (Except.ok [(0 : ℚ)], loopDom c9Page c9Dom 0 0) := by
    rw [frameLoop_step c9Page 0 0 [] c9Dom (by norm_num [c9Page]) rfl (by omega)]
    rw [frameLoop_exit c9Page _ 1 _ _ (by norm_num [c9Page])]
    norm_num [scrollTo, c9Page, c9Dom]
  unfold captureFullPage
  rw [if_neg (by norm_num [c9Page] : ¬ c9Page.metricsOk = false), hfl]
  dsimp only
  rw [if_neg (by norm_num : ¬ ([(0 : ℚ)] : List ℚ).length = 0),
    if_pos (by norm_num [c9Page] : c9Page.stitchOk = true)]
  rfl

/-- Witness for C9's bound at the concrete single-frame run. -/
theorem captureFullPage_frame_bound_witness :
    captureFullPage c9Page c9Dom =
      (Except.ok [(0 : ℚ)], restoreDom 3 7 (loopDom c9Page c9Dom 0 0)) ∧
    ([(0 : ℚ)] : List ℚ).length ≤ 51 := by
  refine ⟨captureFullPage_one_frame, ?_⟩
  exact captureFullPage_frame_bound c9Page c9Dom [(0 : ℚ)] _ captureFullPage_one_frame

/-- On a page whose reported height exceeds every target offset the loop can
reach and whose capture calls all succeed, the frame loop runs to the
iteration cap, capturing one frame per iteration. -/
theorem frameLoop_full_run (page : PageEnv) (hok : ∀ i, page.captureOk i = true) :
    ∀ (n : ℕ) (cY : ℚ) (iteration : ℕ) (caps : List ℚ) (dom : PageDom),
      iteration + n = 50 →
      (∀ k : ℕ, k ≤ n → cY + (k : ℚ) * page.clientHeight < page.scrollHeight) →
      ∃ caps' dom', frameLoop page cY iteration caps dom = (Except.ok caps', dom') ∧
        caps'.length = caps.length + n + 1 := by
  intro n
  induction n with
  | zero =>
    intro cY iteration caps dom hiter hlt
    have h1 : cY < page.scrollHeight := by
      have := hlt 0 (by omega)
      simpa using this
    refine ⟨caps ++ [(scrollTo page dom cY).scrollY], loopDom page dom cY iteration, ?_, ?_⟩
    · exact frameLoop_break page cY iteration caps dom h1 (hok (iteration + 1)) (by omega)
    · simp
  | succ n ih =>
    intro cY iteration caps dom hiter hlt
    have h1 : cY < page.scrollHeight := by
      have := hlt 0 (by omega)
      simpa using this
    have hlt' : ∀ k : ℕ, k ≤ n →
        (cY + page.clientHeight) + (k : ℚ) * page.clientHeight < page.scrollHeight := by
      intro k hk
      have := hlt (k + 1) (by omega)
      push_cast at this ⊢
      linarith
    rw [frameLoop_step page cY iteration caps dom h1 (hok (iteration + 1)) (by omega)]
    obtain ⟨caps', dom', hrec, hlen⟩ := ih (cY + page.clientHeight) (iteration + 1)
      (caps ++ [(scrollTo page dom cY).scrollY]) (loopDom page dom cY iteration)
      (by omega) hlt'
    refine ⟨caps', dom', hrec, ?_⟩
    simp only [List.length_append, List.length_singleton] at hlen
    omega

/-- A page tall enough that the frame loop reaches its iteration cap, with
every external call succeeding. -/
def c9BigPage : PageEnv :=
  { maxScrollY := 1000000, floating := [], metricsOk := true, scrollHeight := 52,
    clientHeight := 1, captureOk := fun _ => true, stitchOk := true }

/-- C9 counterexample: on a page 52 viewport heights tall with every capture
succeeding, the completed full-page capture returns 51 frames — the
`iteration > 50` break sits after the capture of the body, so the loop
performs 51 iterations, not the claimed at-most-50. -/
theorem frameLoop_51_frames_counterexample :
    (captureFullPage c9BigPage c9Dom).1.map List.length = Except.ok 51 := by
  obtain ⟨caps', dom', hfl, hlen⟩ := frameLoop_full_run c9BigPage (fun _ => rfl)
    50 0 0 [] c9Dom (by omega)
    (by
      intro k hk
      have hk' : (k : ℚ) ≤ 50 := by exact_mod_cast hk
      show (0 : ℚ) + (k : ℚ) * c9BigPage.clientHeight < c9BigPage.scrollHeight
      norm_num [c9BigPage]
      linarith)
  have hlen' : caps'.length = 51 := by simpa using hlen
  unfold captureFullPage
  rw [if_neg (by norm_num [c9BigPage] : ¬ c9BigPage.metricsOk = false), hfl]
  dsimp only
  rw [if_neg (by omega : ¬ caps'.length = 0),
    if_pos (by norm_num [c9BigPage] : c9BigPage.stitchOk = true)]
  simp [Except.map, hlen']

/-- The scroll targets the current `captureFullPage`'s frame loop passes to
`window.scrollTo`, in order — read off the same while-loop (background.ts
229-283) as `frameLoop`: the body opens with exactly one scroll to the
current target, a failed capture aborts right after that scroll, and the
loop stops at the iteration cap or once the target reaches the scrollable
height. -/
def frameLoopScrolls (page : PageEnv) : ℚ → ℕ → List ℚ
  | currentY, iteration =>
    if currentY < page.scrollHeight then
      let iter := iteration + 1
      if page.captureOk iter = true then
        if 50 < iter then [currentY]
        else currentY :: frameLoopScrolls page (currentY + page.clientHeight) iter
      else [currentY]
    else []
  termination_by _cY iteration => 51 - iteration

/-- One-step unfolding of `frameLoopScrolls`: a target at or past the
reported page height issues no scroll. -/
theorem frameLoopScrolls_exit (page : PageEnv) (cY : ℚ) (iteration : ℕ)
    (h : ¬ cY < page.scrollHeight) : frameLoopScrolls page cY iteration = [] := by
  rw [frameLoopScrolls, if_neg h]

/-- One-step unfolding of `frameLoopScrolls`: a successful capture below the
iteration cap scrolls once and recurses. -/
theorem frameLoopScrolls_step (page : PageEnv) (cY : ℚ) (iteration : ℕ)
    (h1 : cY < page.scrollHeight) (h2 : page.captureOk (iteration + 1) = true)
    (h3 : ¬ 50 < iteration + 1) :
    frameLoopScrolls page cY iteration =
      cY :: frameLoopScrolls page (cY + page.clientHeight) (iteration + 1) := by
  conv_lhs => rw [frameLoopScrolls]
  rw [if_pos h1]
  dsimp only
  rw [if_pos h2, if_neg h3]

/-- One-step unfolding of `frameLoopScrolls`: iteration 51 scrolls, captures
and then breaks. -/
theorem frameLoopScrolls_break (page : PageEnv) (cY : ℚ) (iteration : ℕ)
    (h1 : cY < page.scrollHeight) (h2 : page.captureOk (iteration + 1) = true)
    (h3 : 50 < iteration + 1) : frameLoopScrolls page cY iteration = [cY] := by
  conv_lhs => rw [frameLoopScrolls]
  rw [if_pos h1]
  dsimp only
  rw [if_pos h2, if_pos h3]

/-- `frameLoopScrolls` is faithful to `frameLoop`: when every capture call
succeeds, the frames a frame-loop run appends are exactly the browser-clamped
scroll targets of `frameLoopScrolls` — one capture per scroll, and no frame
before the first scroll. -/
theorem frameLoop_captures_eq_scrolls (page : PageEnv)
    (hok : ∀ i, page.captureOk i = true) :
    ∀ (n : ℕ) (cY : ℚ) (iteration : ℕ) (caps : List ℚ) (dom : PageDom),
      51 - iteration ≤ n →
      (frameLoop page cY iteration caps dom).1 =
        Except.ok (caps ++ (frameLoopScrolls page cY iteration).map
          (fun y => max 0 (min y page.maxScrollY))) := by
  intro n
  induction n with
  | zero =>
    intro cY iteration caps dom hn
    by_cases h1 : cY < page.scrollHeight
    · have h3 : 50 < iteration + 1 := by omega
      rw [frameLoop_break page cY iteration caps dom h1 (hok (iteration + 1)) h3,
        frameLoopScrolls_break page cY iteration h1 (hok (iteration + 1)) h3]
      simp [scrollTo]
    · rw [frameLoop_exit page cY iteration caps dom h1,
        frameLoopScrolls_exit page cY iteration h1]
      simp
  | succ n ih =>
    intro cY iteration caps dom hn
    by_cases h1 : cY < page.scrollHeight
    · by_cases h3 : 50 < iteration + 1
      · rw [frameLoop_break page cY iteration caps dom h1 (hok (iteration + 1)) h3,
          frameLoopScrolls_break page cY iteration h1 (hok (iteration + 1)) h3]
        simp [scrollTo]
      · rw [frameLoop_step page cY iteration caps dom h1 (hok (iteration + 1)) h3,
          frameLoopScrolls_step page cY iteration h1 (hok (iteration + 1)) h3,
          ih (cY + page.clientHeight) (iteration + 1)
            (caps ++ [(scrollTo page dom cY).scrollY]) (loopDom page dom cY iteration)
            (by omega)]
        simp [scrollTo]
    · rw [frameLoop_exit page cY iteration caps dom h1,
        frameLoopScrolls_exit page cY iteration h1]
      simp

/-- Every scroll the current `captureFullPage` (background.ts 196-315)
issues, in order: a failed metrics read throws before any scroll; otherwise
the function goes straight from reading the metrics to the frame loop —
whose scrolls are therefore the first scrolls of the whole capture — and the
finally-block ends with the single restoring scroll to the original
position. -/
def captureScrollTargets (page : PageEnv) (dom : PageDom) : List ℚ :=
  if page.metricsOk = false then []
  else frameLoopScrolls page 0 0 ++ [dom.scrollY]

/-- The claim's scenario page: a constant reported scroll height of 1000
with a viewport height of 800 (the browser clamps scrolling at 200), and the
metrics read, every capture and the stitch succeeding. -/
def c3Page : PageEnv :=
  { maxScrollY := 200, floating := [], metricsOk := true, scrollHeight := 1000,
    clientHeight := 800, captureOk := fun _ => true, stitchOk := true }

/-- The scenario's page DOM before the capture: scrolled to (3, 7). -/
def c3Dom : PageDom :=
  { scrollX := 3, scrollY := 7, hidden := [], styleInjected := false }

/-- C3 (code divergence): the current `captureFullPage` has no lazy-load
priming phase.  On the claim's scenario page (constant reported scroll
height 1000, viewport height 800, original scroll position (3, 7)) the
complete ordered list of scroll targets the capture issues is [0, 800, 7] —
the frame loop's two capture scrolls followed by the finally-block's restore
— and the run captures a frame at each of those two frame-loop scrolls
(returning exactly the clamped offsets 0 and 200) before handing the page
back at scroll position 7.  No probing scrolls precede the first capture, no
scroll returns to the top before capturing begins, and nothing ever compares
consecutive reported heights: the `while (sameHeightCount < 3)` phase the
claim describes survives only in the superseded `captureFullPage` copy
bundled in src/wxt.config.ts, embedded below as `primeStep`. -/
theorem captureFullPage_no_priming :
    captureScrollTargets c3Page c3Dom = [0, 800, 7] ∧
    (captureFullPage c3Page c3Dom).1 = Except.ok [0, 200] ∧
    (captureFullPage c3Page c3Dom).2.scrollY = 7 := by
  have s2 : frameLoopScrolls c3Page 1600 2 = [] :=
    frameLoopScrolls_exit c3Page 1600 2 (by norm_num [c3Page])
  have s1 : frameLoopScrolls c3Page 800 1 = [800] := by
    rw [frameLoopScrolls_step c3Page 800 1 (by norm_num [c3Page]) rfl (by omega)]
    rw [show (800 : ℚ) + c3Page.clientHeight = 1600 from by norm_num [c3Page], s2]
  have s0 : frameLoopScrolls c3Page 0 0 = [0, 800] := by
    rw [frameLoopScrolls_step c3Page 0 0 (by norm_num [c3Page]) rfl (by omega)]
    rw [show (0 : ℚ) + c3Page.clientHeight = 800 from by norm_num [c3Page], s1]
  have hfl : (frameLoop c3Page 0 0 [] c3Dom).1 = Except.ok [0, 200] := by
    rw [frameLoop_captures_eq_scrolls c3Page (fun _ => rfl) 51 0 0 [] c3Dom (by omega), s0]
    norm_num [c3Page, min_def, max_def]
  rcases hpair : frameLoop c3Page 0 0 [] c3Dom with ⟨res, d⟩
  have hres : res = Except.ok [0, 200] := by
    have h := hfl
    rw [hpair] at h
    exact h
  subst hres
  refine ⟨?_, ?_, ?_⟩
  · rw [captureScrollTargets, if_neg (by norm_num [c3Page] : ¬ c3Page.metricsOk = false), s0]
    rfl
  · unfold captureFullPage
    rw [if_neg (by norm_num [c3Page] : ¬ c3Page.metricsOk = false), hpair]
    dsimp only
    rw [if_neg (by norm_num : ¬ ([(0 : ℚ), 200] : List ℚ).length = 0),
      if_pos (by norm_num [c3Page] : c3Page.stitchOk = true)]
  · unfold captureFullPage
    rw [if_neg (by norm_num [c3Page] : ¬ c3Page.metricsOk = false), hpair]
    dsimp only
    rw [if_neg (by norm_num : ¬ ([(0 : ℚ), 200] : List ℚ).length = 0),
      if_pos (by norm_num [c3Page] : c3Page.stitchOk = true)]
    rfl

/-! ## Lazy-load priming — the `while (sameHeightCount < 3)` loop of the
superseded `captureFullPage` copy bundled in src/wxt.config.ts, the only
implementation of the phase the spec and claim describe that the repository
contains; the current background.ts capture has no such phase (see
`captureFullPage_no_priming` above) -/

/-- The state of the lazy-load priming loop: the next scroll target, the last
reported page height, the count of consecutive steps with unchanged height,
the number of steps performed, whether the 100000px safety-distance break
fired, and the scroll targets issued so far. -/
structure PrimeState where
  currentY : ℚ
  lastHeight : ℚ
  sameHeightCount : ℕ
  steps : ℕ
  capBroken : Bool
  scrolls : List ℚ
deriving DecidableEq, Repr

/-- The loop guard: priming continues while `sameHeightCount < 3` and the
safety-distance break has not fired. -/
def primeDone (s : PrimeState) : Bool := s.capBroken || decide (3 ≤ s.sameHeightCount)

/-- One body of the priming loop, translated from the superseded
`captureFullPage` copy in src/wxt.config.ts (the current background.ts
`captureFullPage` contains no such loop): scroll to `currentY`, wait the
settle delay, read the page's reported scroll height (`heights s.steps`),
bump or reset `sameHeightCount` depending on whether it changed, advance the
target by one viewport height, and fire the safety break once the target
passes 100000.  A stopped loop is left unchanged so the body can be
iterated. -/
def primeStep (heights : ℕ → ℚ) (viewportHeight : ℚ) (s : PrimeState) : PrimeState :=
  if primeDone s = true then s
  else
    let newHeight := heights s.steps
    let cnt := if newHeight = s.lastHeight then s.sameHeightCount + 1 else 0
    let last := if newHeight = s.lastHeight then s.lastHeight else newHeight
    let y := s.currentY + viewportHeight
    { currentY := y, lastHeight := last, sameHeightCount := cnt,
      steps := s.steps + 1, capBroken := decide (100000 < y),
      scrolls := s.scrolls ++ [s.currentY] }

/-- The loop's initial state (`currentY = 0`, `lastHeight = 0`,
`sameHeightCount = 0`). -/
def primeInit : PrimeState :=
  { currentY := 0, lastHeight := 0, sameHeightCount := 0, steps := 0,
    capBroken := false, scrolls := [] }

/-- The scroll targets the whole priming phase issues when the loop stops
within `n` steps: each loop body's target, then the final
`window.scrollTo(0, 0)` back to the top. -/
def primingScrollTargets (heights : ℕ → ℚ) (viewportHeight : ℚ) (n : ℕ) : List ℚ :=
  ((primeStep heights viewportHeight)^[n] primeInit).scrolls ++ [0]

/-- Once the priming loop has stopped, its body leaves the state unchanged. -/
theorem primeStep_done (heights : ℕ → ℚ) (vh : ℚ) (s : PrimeState)
    (h : primeDone s = true) : primeStep heights vh s = s := by
  rw [primeStep, if_pos h]

/-- The priming phase as the claim describes it, proved of the only
implementation the repository contains (the superseded `captureFullPage`
copy in src/wxt.config.ts): it scrolls down one viewport height per step
with a settle delay per step, stops as soon as the reported scroll height is
unchanged across 3 consecutive steps (`sameHeightCount` reaches 3 — the
100000px safety-distance cap being the only other exit), and then scrolls
back to the top.  With a constant nonzero reported height the loop is still
running after 3 steps (count 2) and stops exactly after the 4th step with
count 3, never via the cap; the issued scroll targets are 0, vh, 2vh, 3vh
followed by the final scroll to 0.  The current capture never runs this
phase — see `captureFullPage_no_priming`. -/
theorem priming_stops_after_three_repeats (heights : ℕ → ℚ) (H vh : ℚ)
    (hH : ∀ i, heights i = H) (hH0 : H ≠ 0) (_hvh : 0 ≤ vh)
    (hcap : 4 * vh ≤ 100000) :
    primeDone ((primeStep heights vh)^[3] primeInit) = false ∧
    ((primeStep heights vh)^[3] primeInit).sameHeightCount = 2 ∧
    primeDone ((primeStep heights vh)^[4] primeInit) = true ∧
    ((primeStep heights vh)^[4] primeInit).sameHeightCount = 3 ∧
    ((primeStep heights vh)^[4] primeInit).capBroken = false ∧
    primingScrollTargets heights vh 4 = [0, vh, vh + vh, vh + vh + vh, 0] ∧
    (∀ n, (primeStep heights vh)^[4 + n] primeInit
      = (primeStep heights vh)^[4] primeInit) := by
  have hc1 : ¬ (100000 : ℚ) < 0 + vh := by linarith
  have hc2 : ¬ (100000 : ℚ) < vh + vh := by linarith
  have hc3 : ¬ (100000 : ℚ) < vh + vh + vh := by linarith
  have hc4 : ¬ (100000 : ℚ) < vh + vh + vh + vh := by linarith
  have e1 : primeStep heights vh primeInit =
      { currentY := vh, lastHeight := H, sameHeightCount := 0, steps := 1,
        capBroken := false, scrolls := [0] } := by
    simp only [primeStep, primeDone, primeInit]
    norm_num [hH 0, hH0, hc1]
    all_goals linarith
  have e2 : primeStep heights vh
      { currentY := vh, lastHeight := H, sameHeightCount := 0, steps := 1,
        capBroken := false, scrolls := [0] } =
      { currentY := vh + vh, lastHeight := H, sameHeightCount := 1, steps := 2,
        capBroken := false, scrolls := [0, vh] } := by
    simp only [primeStep, primeDone]
    norm_num [hH 1, hc2]
  have e3 : primeStep heights vh
      { currentY := vh + vh, lastHeight := H, sameHeightCount := 1, steps := 2,
        capBroken := false, scrolls := [0, vh] } =
      { currentY := vh + vh + vh, lastHeight := H, sameHeightCount := 2, steps := 3,
        capBroken := false, scrolls := [0, vh, vh + vh] } := by
    simp only [primeStep, primeDone]
    norm_num [hH 2, hc3]
  have e4 : primeStep heights vh
      { currentY := vh + vh + vh, lastHeight := H, sameHeightCount := 2, steps := 3,
        capBroken := false, scrolls := [0, vh, vh + vh] } =
      { currentY := vh + vh + vh + vh, lastHeight := H, sameHeightCount := 3, steps := 4,
        capBroken := false, scrolls := [0, vh, vh + vh, vh + vh + vh] } := by
    simp only [primeStep, primeDone]
    norm_num [hH 3, hc4]
  have i3 : (primeStep heights vh)^[3] primeInit =
      { currentY := vh + vh + vh, lastHeight := H, sameHeightCount := 2, steps := 3,
        capBroken := false, scrolls := [0, vh, vh + vh] } := by
    show primeStep heights vh (primeStep heights vh (primeStep heights vh primeInit)) = _
    rw [e1, e2, e3]
  have i4 : (primeStep heights vh)^[4] primeInit =
      { currentY := vh + vh + vh + vh, lastHeight := H, sameHeightCount := 3, steps := 4,
        capBroken := false, scrolls := [0, vh, vh + vh, vh + vh + vh] } := by
    show primeStep heights vh (primeStep heights vh (primeStep heights vh
      (primeStep heights vh primeInit))) = _
    rw [e1, e2, e3, e4]
  have hdone4 : primeDone ((primeStep heights vh)^[4] primeInit) = true := by
    rw [i4]; rfl
  refine ⟨?_, ?_, hdone4, ?_, ?_, ?_, ?_⟩
  · rw [i3]; rfl
  · rw [i3]
  · rw [i4]
  · rw [i4]
  · rw [primingScrollTargets, i4]
    rfl
  · intro n
    induction n with
    | zero => rfl
    | succ n ih =>
      rw [show 4 + (n + 1) = (4 + n) + 1 from rfl, Function.iterate_succ_apply', ih,
        primeStep_done heights vh _ hdone4]

/-- The claim's scenario run through the superseded implementation: reported
heights [1000, 1000, 1000, 1000] with viewport height 800.  The loop is
still running after 3 steps and stops exactly when the repeat count reaches
3, after its 4th step; the scroll targets are 0, 800, 1600, 2400 and then
back to 0. -/
theorem priming_stops_after_three_repeats_witness :
    ((1000 : ℚ) ≠ 0 ∧ (0 : ℚ) ≤ 800 ∧ (4 : ℚ) * 800 ≤ 100000) ∧
    primeDone ((primeStep (fun _ => (1000 : ℚ)) 800)^[3] primeInit) = false ∧
    primeDone ((primeStep (fun _ => (1000 : ℚ)) 800)^[4] primeInit) = true ∧
    ((primeStep (fun _ => (1000 : ℚ)) 800)^[4] primeInit).sameHeightCount = 3 ∧
    primingScrollTargets (fun _ => (1000 : ℚ)) 800 4 = [0, 800, 1600, 2400, 0] := by
  obtain ⟨d3, -, d4, c4, -, tg, -⟩ := priming_stops_after_three_repeats
    (fun _ => (1000 : ℚ)) 1000 800 (fun _ => rfl) (by norm_num) (by norm_num) (by norm_num)
  refine ⟨⟨by norm_num, by norm_num, by norm_num⟩, d3, d4, c4, ?_⟩
  rw [tg]
  norm_num

/-! ## Editor document, history and crop model (editor/Editor.tsx) -/

/-- Colors are the strings the editor manipulates. -/
abbrev Color := String

/-- An idealized bitmap: its dimensions and the color at each document
coordinate. -/
structure Bitmap where
  width : ℚ
  height : ℚ
  pixel : ℚ → ℚ → Color

/-- The `Tool` union of Editor.tsx. -/
inductive Tool
  | crop | pencil | line | arrow | rectangle | circle | text | blur | image
deriving DecidableEq, Repr

/-- The text-case variants of a text element. -/
inductive TextCase
  | none | uppercase | capitalize
deriving DecidableEq, Repr

/-- The `DrawingElement` interface of Editor.tsx (fields that are optional in
the source are `Option`s here; `dash: null` and an absent `dash` both map to
`Option.none`). -/
structure DrawingElement where
  id : String
  type : Tool
  points : Option (List ℚ) := Option.none
  x : ℚ
  y : ℚ
  width : Option ℚ := Option.none
  height : Option ℚ := Option.none
  text : Option String := Option.none
  color : Color
  strokeWidth : ℚ
  filled : Option Bool := Option.none
  visible : Bool
  name : String
  opacity : Option ℚ := Option.none
  dash : Option (List ℚ) := Option.none
  pointerAtStart : Option Bool := Option.none
  fontFamily : Option String := Option.none
  fontSize : Option ℚ := Option.none
  bgColor : Option Color := Option.none
  strokeColor : Option Color := Option.none
  shadowBlur : Option ℚ := Option.none
  shadowOffset : Option ℚ := Option.none
  shadowColor : Option Color := Option.none
  letterSpacing : Option ℚ := Option.none
  lineHeight : Option ℚ := Option.none
  textCase : Option TextCase := Option.none
  align : Option String := Option.none
  imageSrc : Option String := Option.none
deriving DecidableEq, Repr

/-- The pending crop rectangle (`cropRect` state): may have negative width or
height while the user drags leftward/upward. -/
structure CropRect where
  x : ℚ
  y : ℚ
  width : ℚ
  height : ℚ
deriving DecidableEq, Repr

/-- The inline text-entry affordance state (`textInput`). -/
structure TextInputState where
  x : ℚ
  y : ℚ
  visible : Bool
  editingId : Option String
deriving DecidableEq, Repr

/-- A pointer position in document space (the result of
`getPointerPosition`). -/
structure Pos where
  x : ℚ
  y : ℚ
deriving DecidableEq, Repr

/-- The editor's state: the base bitmap and stage size, the active tool and
global style state, the element document, the pending drawing/crop state, and
the history stack with its index (the useState hooks of Editor.tsx). -/
@[ext]
structure EditorState where
  image : Bitmap
  stageWidth : ℚ
  stageHeight : ℚ
  tool : Tool
  color : Color
  strokeWidth : ℚ
  filled : Bool
  opacity : ℚ
  dashEnabled : Bool
  dashStyle : List ℚ
  pointerAtStart : Bool
  fontFamily : String
  fontSize : ℚ
  bgColor : Color
  strokeColor : Color
  shadowBlur : ℚ
  shadowOffset : ℚ
  shadowColor : Color
  letterSpacing : ℚ
  lineHeight : ℚ
  textCase : TextCase
  align : String
  elements : List DrawingElement
  selectedId : Option String
  isDrawing : Bool
  currentElement : Option DrawingElement
  history : List (List DrawingElement)
  historyIndex : ℕ
  textInput : TextInputState
  textValue : String
  elementCounter : ℕ
  cropRect : Option CropRect
  isCropping : Bool

/-- The editor state right after a captured bitmap has been loaded: the
useState initializers of Editor.tsx, with the stage size set to the image
dimensions (the image-onload handler). -/
def initialEditorState (img : Bitmap) : EditorState :=
  { image := img, stageWidth := img.width, stageHeight := img.height,
    tool := Tool.crop, color := "#6366f1", strokeWidth := 3, filled := false,
    opacity := 1, dashEnabled := false, dashStyle := [10, 5],
    pointerAtStart := false, fontFamily := "Inter", fontSize := 24,
    bgColor := "#ffffff", strokeColor := "#000000", shadowBlur := 0,
    shadowOffset := 0, shadowColor := "#000000", letterSpacing := 0,
    lineHeight := 6 / 5, textCase := TextCase.none, align := "left",
    elements := [], selectedId := Option.none, isDrawing := false,
    currentElement := Option.none, history := [[]], historyIndex := 0,
    textInput := { x := 0, y := 0, visible := false, editingId := Option.none },
    textValue := "", elementCounter := 1, cropRect := Option.none,
    isCropping := false }

/-- `addToHistory` (Editor.tsx 447-452): truncate every entry after the
current index, append the new snapshot, and point the index at it. -/
def addToHistory (s : EditorState) (newElements : List DrawingElement) : EditorState :=
  { s with
    history := s.history.take (s.historyIndex + 1) ++ [newElements],
    historyIndex := (s.history.take (s.historyIndex + 1) ++ [newElements]).length - 1 }

/-- The shared tail of every committing handler in Editor.tsx
(`handleStageMouseUp`, `updateElementProperty`, `deleteElement`,
`handleTransformEnd`, ...): `setElements(newElements)` followed by
`addToHistory(newElements)`. -/
def record (s : EditorState) (newElements : List DrawingElement) : EditorState :=
  addToHistory { s with elements := newElements } newElements

/-- `undo` (Editor.tsx 822-827). -/
def undo (s : EditorState) : EditorState :=
  if 0 < s.historyIndex then
    { s with historyIndex := s.historyIndex - 1,
             elements := s.history.getD (s.historyIndex - 1) [] }
  else s

/-- `redo` (Editor.tsx 829-834). -/
def redo (s : EditorState) : EditorState :=
  if s.historyIndex < s.history.length - 1 then
    { s with historyIndex := s.historyIndex + 1,
             elements := s.history.getD (s.historyIndex + 1) [] }
  else s

/-- Capitalized tool names as produced by
`tool.charAt(0).toUpperCase() + tool.slice(1)`. -/
def toolName : Tool → String
  | Tool.crop => "Crop"
  | Tool.pencil => "Pencil"
  | Tool.line => "Line"
  | Tool.arrow => "Arrow"
  | Tool.rectangle => "Rectangle"
  | Tool.circle => "Circle"
  | Tool.text => "Text"
  | Tool.blur => "Blur"
  | Tool.image => "Image"

/-- `handleStageMouseDown` (Editor.tsx 466-509).  `pos` is the pointer
position in document space, `clickedOnEmpty` whether the press hit the stage
or the background image, and `newId` the id generated for a new element
(`element-Date.now()` in the source). -/
def handleStageMouseDown (pos : Pos) (clickedOnEmpty : Bool) (newId : String)
    (s : EditorState) : EditorState :=
  match s.tool with
  | Tool.crop =>
    if clickedOnEmpty then
      { s with selectedId := Option.none, isCropping := true,
               cropRect := some { x := pos.x, y := pos.y, width := 0, height := 0 } }
    else s
  | Tool.text =>
    if clickedOnEmpty then
      { s with textInput := { x := pos.x, y := pos.y, visible := true,
                              editingId := Option.none },
               textValue := "" }
    else s
  | t =>
    if t = Tool.pencil ∨ t = Tool.line ∨ t = Tool.arrow ∨ t = Tool.rectangle ∨
        t = Tool.circle ∨ t = Tool.blur then
      { s with
        isDrawing := true,
        currentElement := some
          { id := newId, type := t, x := pos.x, y := pos.y,
            points := some (if t = Tool.pencil then [0, 0] else [0, 0, 0, 0]),
            width := some 0, height := some 0,
            color := s.color, strokeWidth := s.strokeWidth,
            filled := some s.filled, align := some s.align, visible := true,
            name := toolName t ++ " " ++ toString s.elementCounter,
            opacity := some s.opacity,
            dash := if s.dashEnabled then some s.dashStyle else Option.none,
            pointerAtStart := if t = Tool.arrow then some s.pointerAtStart
              else Option.none } }
    else s

/-- `handleStageMouseMove` (Editor.tsx 511-530): pencil strokes append a new
relative point, every other pending shape gets its extent updated to the
absolute drag deltas. -/
def handleStageMouseMove (pos : Pos) (s : EditorState) : EditorState :=
  if s.isDrawing = false then s
  else
    match s.currentElement with
    | Option.none => s
    | some cur =>
      if cur.type = Tool.pencil then
        { s with
          currentElement := some
            { cur with
              points := some (cur.points.getD [] ++
                [pos.x - cur.x, pos.y - cur.y]) } }
      else
        { s with
          currentElement := some
            { cur with
              points := some [0, 0, pos.x - cur.x, pos.y - cur.y],
              width := some |pos.x - cur.x|,
              height := some |pos.y - cur.y| } }

/-- `handleStageMouseUp` (Editor.tsx 546-560): commit the pending element
when it exceeds the minimum size threshold (`> 4` recorded points for the
pencil, width or height `> 5` for every other shape), else discard it. -/
def handleStageMouseUp (s : EditorState) : EditorState :=
  if s.isDrawing = false then s
  else
    match s.currentElement with
    | Option.none => s
    | some cur =>
      let hasSize : Bool :=
        if cur.type = Tool.pencil then decide (4 < (cur.points.getD []).length)
        else decide (5 < cur.width.getD 0) || decide (5 < cur.height.getD 0)
      if hasSize then
        { record { s with isDrawing := false } (s.elements ++ [cur]) with
          elementCounter := s.elementCounter + 1, currentElement := Option.none }
      else { s with isDrawing := false, currentElement := Option.none }

/-- `toggleVisibility` (Editor.tsx 650-652): flips the element's `visible`
flag through `setElements` alone — it does not call `addToHistory`. -/
def toggleVisibility (id : String) (s : EditorState) : EditorState :=
  { s with
    elements := s.elements.map
      (fun el => if el.id = id then { el with visible := !el.visible } else el) }

/-- `updateElementProperty` (Editor.tsx 415-445), with the
`Partial<DrawingElement>` merge abstracted as an update function applied to
the matching element.  (The global style-state synchronization and the
active-template clearing in the source touch neither `elements` nor the
history and are omitted.) -/
def updateElementProperty (id : String) (patch : DrawingElement → DrawingElement)
    (saveToHistory : Bool) (s : EditorState) : EditorState :=
  let newElements := s.elements.map (fun el => if el.id = id then patch el else el)
  if saveToHistory then record s newElements else { s with elements := newElements }

/-- `handleDragEnd` (Editor.tsx 615-617). -/
def handleDragEnd (id : String) (nodeX nodeY : ℚ) (s : EditorState) : EditorState :=
  updateElementProperty id (fun el => { el with x := nodeX, y := nodeY }) true s

/-- `deleteElement` (Editor.tsx 643-648). -/
def deleteElement (id : String) (s : EditorState) : EditorState :=
  let s1 := record s (s.elements.filter (fun el => el.id ≠ id))
  if s1.selectedId = some id then { s1 with selectedId := Option.none } else s1

/-- The index-alternating scaling of `points.map((p, i) => i % 2 === 0 ?
p * scaleX : p * scaleY)`. -/
def scalePoints (sx sy : ℚ) : List ℚ → List ℚ
  | [] => []
  | [a] => [a * sx]
  | a :: b :: rest => a * sx :: b * sy :: scalePoints sx sy rest

/-- `handleTransformEnd` (Editor.tsx 619-641): apply the node's scale to the
matching element (points for strokes, font size and stroke width for text,
width/height for the rest), then commit. -/
def handleTransformEnd (id : String) (nodeX nodeY scaleX scaleY : ℚ)
    (s : EditorState) : EditorState :=
  record s (s.elements.map (fun el =>
    if el.id = id then
      if el.type = Tool.pencil ∨ el.type = Tool.line ∨ el.type = Tool.arrow then
        { el with x := nodeX, y := nodeY,
                  points := el.points.map (scalePoints scaleX scaleY) }
      else if el.type = Tool.text then
        { el with x := nodeX, y := nodeY,
                  fontSize := some (max 8
                    ((jsRound ((el.fontSize.getD 24) * max scaleX scaleY) : ℤ) : ℚ)),
                  strokeWidth := max 1
                    ((jsRound (el.strokeWidth * max scaleX scaleY) : ℤ) : ℚ) }
      else
        { el with x := nodeX, y := nodeY,
                  width := some |el.width.getD 0 * scaleX|,
                  height := some |el.height.getD 0 * scaleY| }
    else el))

/-- `handleCropMouseMove` (Editor.tsx 532-540). -/
def handleCropMouseMove (pos : Pos) (s : EditorState) : EditorState :=
  if s.isCropping = false then s
  else
    match s.cropRect with
    | Option.none => s
    | some r =>
      { s with cropRect := some { r with width := pos.x - r.x, height := pos.y - r.y } }

/-- `handleCropMouseUp` (Editor.tsx 542-544). -/
def handleCropMouseUp (s : EditorState) : EditorState :=
  if s.isCropping then { s with isCropping := false } else s

/-- `applyCrop` (Editor.tsx 861-880): normalize the pending rectangle
(negative width/height means the drag went leftward/upward), draw that region
of the base image — and only the base image — onto a fresh canvas, make it
the new base bitmap and stage size, clear the pending rectangle, clear the
element document, and reset the history to a single empty snapshot. -/
def applyCrop (s : EditorState) : EditorState :=
  match s.cropRect with
  | Option.none => s
  | some r =>
    let x := if r.width < 0 then r.x + r.width else r.x
    let y := if r.height < 0 then r.y + r.height else r.y
    let w := |r.width|
    let h := |r.height|
    { s with
      image := { width := w, height := h,
                 pixel := fun i j => s.image.pixel (x + i) (y + j) },
      stageWidth := w, stageHeight := h,
      cropRect := Option.none, elements := [], history := [[]], historyIndex := 0 }

/-- `cancelCrop` (Editor.tsx 882). -/
def cancelCrop (s : EditorState) : EditorState :=
  { s with cropRect := Option.none, isCropping := false }

/-- Modelled from the spec: whether a drawing element paints over document
pixel (i, j).  The spec's CompositeRenderer (section 4.5) renders every
visible element in document order over the base bitmap; the per-kind
rasterization itself happens inside the Konva library, outside this
repository's sources, so only the kind the comparison needs is modelled
here: a filled rectangle paints its interior with its color (the filled
`Rect` arm of `renderElement`). -/
def paintsPixel (el : DrawingElement) (i j : ℚ) : Bool :=
  decide (el.type = Tool.rectangle) && decide (el.filled = some true) &&
    decide (el.x ≤ i) && decide (i < el.x + el.width.getD 0) &&
    decide (el.y ≤ j) && decide (j < el.y + el.height.getD 0)

/-- Modelled from the spec: the composited view — the base bitmap with every
visible element rendered over it in document order (later elements drawn on
top). -/
def compositedPixel (base : Bitmap) (els : List DrawingElement) (i j : ℚ) : Color :=
  els.foldl (fun acc el => if el.visible && paintsPixel el i j then el.color else acc)
    (base.pixel i j)

/-- A plain white base bitmap. -/
def whiteBitmap : Bitmap :=
  { width := 100, height := 100, pixel := fun _ _ => "#ffffff" }

/-- A visible filled red rectangle annotation. -/
def redRect : DrawingElement :=
  { id := "element-1", type := Tool.rectangle, x := 0, y := 0,
    width := some 50, height := some 50, color := "#ff0000", strokeWidth := 3,
    filled := some true, visible := true, name := "Rectangle 1" }

/-- An editor state with one committed annotation and a pending crop covering
it. -/
def cropTestState : EditorState :=
  { initialEditorState whiteBitmap with
    elements := [redRect],
    history := [[], [redRect]],
    historyIndex := 1,
    cropRect := some { x := 0, y := 0, width := 50, height := 50 } }

/-- C2 counterexample: applying the crop does not rasterize the composited
view.  At pixel (10, 10) of the crop region the composited view shows the red
annotation, but the new base bitmap holds the white base pixel — `applyCrop`
draws only the base image, so the visible annotation is discarded rather than
baked in. -/
theorem applyCrop_drops_annotations_counterexample :
    (applyCrop cropTestState).image.pixel 10 10 = "#ffffff" ∧
    compositedPixel cropTestState.image cropTestState.elements (0 + 10) (0 + 10)
      = "#ff0000" ∧
    ¬ (applyCrop cropTestState).image.pixel 10 10
      = compositedPixel cropTestState.image cropTestState.elements (0 + 10) (0 + 10) := by
  have h1 : (applyCrop cropTestState).image.pixel 10 10 = "#ffffff" := by
    norm_num [applyCrop, cropTestState, initialEditorState, whiteBitmap]
  have h2 : compositedPixel cropTestState.image cropTestState.elements (0 + 10) (0 + 10)
      = "#ff0000" := by
    norm_num [compositedPixel, paintsPixel, cropTestState, initialEditorState,
      whiteBitmap, redRect]
  refine ⟨h1, h2, ?_⟩
  rw [h1, h2]
  decide

/-- C2 (amended): for every editor state with a pending crop rectangle,
applying the crop produces a new base bitmap equal to the previous *base*
bitmap restricted to the normalized crop region — the annotation elements are
not rendered into it, they are discarded — clears the element document, and
resets the history to a single empty snapshot with index 0. -/
theorem applyCrop_resets_document (s : EditorState) (r : CropRect)
    (h : s.cropRect = some r) :
    (applyCrop s).elements = [] ∧
    (applyCrop s).history = [[]] ∧
    (applyCrop s).historyIndex = 0 ∧
    (applyCrop s).image.width = |r.width| ∧
    (applyCrop s).image.height = |r.height| ∧
    (∀ i j : ℚ, (applyCrop s).image.pixel i j =
      s.image.pixel ((if r.width < 0 then r.x + r.width else r.x) + i)
                    ((if r.height < 0 then r.y + r.height else r.y) + j)) := by
  unfold applyCrop
  rw [h]
  exact ⟨rfl, rfl, rfl, rfl, rfl, fun i j => rfl⟩

/-- Witness for C2's amended theorem at the concrete cropped state. -/
theorem applyCrop_resets_document_witness :
    cropTestState.cropRect = some { x := 0, y := 0, width := 50, height := 50 } ∧
    (applyCrop cropTestState).elements = [] ∧
    (applyCrop cropTestState).history = [[]] ∧
    (applyCrop cropTestState).historyIndex = 0 := by
  obtain ⟨a, b, c, -⟩ := applyCrop_resets_document cropTestState
    { x := 0, y := 0, width := 50, height := 50 } rfl
  exact ⟨rfl, a, b, c⟩

/-- C10: a pending crop rectangle dragged leftward/upward (negative width or
height) is normalized on apply: the cropped origin is
(x + min(width, 0), y + min(height, 0)), the new base bitmap and the stage
dimensions equal (|width|, |height|), and the cropped pixels are those of the
axis-aligned region spanned by the two drag corners. -/
theorem applyCrop_normalizes_negative (s : EditorState) (r : CropRect)
    (h : s.cropRect = some r) :
    (applyCrop s).stageWidth = |r.width| ∧
    (applyCrop s).stageHeight = |r.height| ∧
    (applyCrop s).image.width = |r.width| ∧
    (applyCrop s).image.height = |r.height| ∧
    (∀ i j : ℚ, (applyCrop s).image.pixel i j =
      s.image.pixel (r.x + min r.width 0 + i) (r.y + min r.height 0 + j)) := by
  have hx : (if r.width < 0 then r.x + r.width else r.x) = r.x + min r.width 0 := by
    by_cases hw : r.width < 0
    · rw [if_pos hw, min_eq_left hw.le]
    · rw [if_neg hw, min_eq_right (not_lt.mp hw), add_zero]
  have hy : (if r.height < 0 then r.y + r.height else r.y) = r.y + min r.height 0 := by
    by_cases hw : r.height < 0
    · rw [if_pos hw, min_eq_left hw.le]
    · rw [if_neg hw, min_eq_right (not_lt.mp hw), add_zero]
  unfold applyCrop
  rw [h]
  refine ⟨rfl, rfl, rfl, rfl, ?_⟩
  intro i j
  show s.image.pixel ((if r.width < 0 then r.x + r.width else r.x) + i)
      ((if r.height < 0 then r.y + r.height else r.y) + j) = _
  rw [hx, hy]

/-- An editor state whose pending crop was dragged upward and leftward. -/
def negCropState : EditorState :=
  { initialEditorState whiteBitmap with
    cropRect := some { x := 50, y := 40, width := -30, height := -20 } }

/-- Witness for C10 at a concrete negative drag: the 30x20 region with origin
(20, 20) is cropped. -/
theorem applyCrop_normalizes_negative_witness :
    negCropState.cropRect = some { x := 50, y := 40, width := -30, height := -20 } ∧
    (applyCrop negCropState).stageWidth = 30 ∧
    (applyCrop negCropState).stageHeight = 20 ∧
    (applyCrop negCropState).image.pixel 0 0 = negCropState.image.pixel 20 20 := by
  obtain ⟨a, b, -, -, e⟩ := applyCrop_normalizes_negative negCropState
    { x := 50, y := 40, width := -30, height := -20 } rfl
  refine ⟨rfl, ?_, ?_, ?_⟩
  · rw [a]; norm_num
  · rw [b]; norm_num
  · rw [e 0 0]
    norm_num

/-- C5: releasing the pointer of a shape drawing gesture (line, arrow,
rectangle, ellipse/circle, blur-region) always ends the gesture, and commits
the pending element into the document — pushing exactly one history snapshot —
precisely when its extent (the larger of its width and height) exceeds the
5-pixel threshold; below the threshold the document, history and index are
unchanged.  A committed shape therefore never has zero extent. -/
theorem mouseUp_commit_iff (s : EditorState) (cur : DrawingElement)
    (hd : s.isDrawing = true) (hc : s.currentElement = some cur)
    (ht : cur.type = Tool.line ∨ cur.type = Tool.arrow ∨ cur.type = Tool.rectangle ∨
      cur.type = Tool.circle ∨ cur.type = Tool.blur) :
    (handleStageMouseUp s).isDrawing = false ∧
    (handleStageMouseUp s).currentElement = Option.none ∧
    (if 5 < max (cur.width.getD 0) (cur.height.getD 0) then
      (handleStageMouseUp s).elements = s.elements ++ [cur] ∧
      (handleStageMouseUp s).history
        = s.history.take (s.historyIndex + 1) ++ [s.elements ++ [cur]] ∧
      ¬ max (cur.width.getD 0) (cur.height.getD 0) = 0
    else
      (handleStageMouseUp s).elements = s.elements ∧
      (handleStageMouseUp s).history = s.history ∧
      (handleStageMouseUp s).historyIndex = s.historyIndex) := by
  have hnp : ¬ cur.type = Tool.pencil := by
    rcases ht with h | h | h | h | h <;> rw [h] <;> exact fun hx => nomatch hx
  have key : handleStageMouseUp s =
      (if (decide (5 < cur.width.getD 0) || decide (5 < cur.height.getD 0)) = true
        then { record { s with isDrawing := false } (s.elements ++ [cur]) with
               elementCounter := s.elementCounter + 1, currentElement := Option.none }
        else { s with isDrawing := false, currentElement := Option.none }) := by
    unfold handleStageMouseUp
    rw [hd, hc]
    simp only [Bool.true_eq_false, if_false]
    rw [if_neg hnp]
  rw [key]
  by_cases h5 : 5 < max (cur.width.getD 0) (cur.height.getD 0)
  · have hb : (decide (5 < cur.width.getD 0) || decide (5 < cur.height.getD 0)) = true := by
      rw [Bool.or_eq_true, decide_eq_true_eq, decide_eq_true_eq]
      exact lt_max_iff.mp h5
    rw [if_pos hb, if_pos h5]
    refine ⟨rfl, rfl, rfl, rfl, ?_⟩
    intro h0
    rw [h0] at h5
    exact absurd h5 (by norm_num)
  · have hb : ¬ (decide (5 < cur.width.getD 0) || decide (5 < cur.height.getD 0)) = true := by
      rw [Bool.or_eq_true, decide_eq_true_eq, decide_eq_true_eq]
      rw [lt_max_iff] at h5
      exact h5
    rw [if_neg hb, if_neg h5]
    exact ⟨rfl, rfl, rfl, rfl, rfl⟩

/-- The initial editor state with the rectangle tool selected. -/
def rectToolState : EditorState :=
  { initialEditorState whiteBitmap with tool := Tool.rectangle }

/-- The state after pressing at (0,0) and dragging to (10,10) with the
rectangle tool. -/
def bigDragState : EditorState :=
  handleStageMouseMove { x := 10, y := 10 }
    (handleStageMouseDown { x := 0, y := 0 } true "element-1" rectToolState)

/-- The state after pressing at (0,0) and dragging to (2,2) with the
rectangle tool. -/
def smallDragState : EditorState :=
  handleStageMouseMove { x := 2, y := 2 }
    (handleStageMouseDown { x := 0, y := 0 } true "element-1" rectToolState)

/-- The pending rectangle element produced by the (10,10) drag. -/
def bigEl : DrawingElement :=
  { id := "element-1", type := Tool.rectangle, points := some [0, 0, 10, 10],
    x := 0, y := 0, width := some 10, height := some 10, color := "#6366f1",
    strokeWidth := 3, filled := some false, visible := true,
    name := toolName Tool.rectangle ++ " " ++ toString 1, opacity := some 1,
    dash := Option.none, pointerAtStart := Option.none, align := some "left" }

/-- The pending rectangle element produced by the (2,2) drag. -/
def smallEl : DrawingElement :=
  { id := "element-1", type := Tool.rectangle, points := some [0, 0, 2, 2],
    x := 0, y := 0, width := some 2, height := some 2, color := "#6366f1",
    strokeWidth := 3, filled := some false, visible := true,
    name := toolName Tool.rectangle ++ " " ++ toString 1, opacity := some 1,
    dash := Option.none, pointerAtStart := Option.none, align := some "left" }

/-- Witness for C5: a (10,10) rectangle drag commits one element and pushes
one snapshot; a (2,2) drag leaves document, history and index untouched. -/
theorem mouseUp_commit_iff_witness :
    bigDragState.isDrawing = true ∧
    (handleStageMouseUp bigDragState).elements = bigDragState.elements ++ [bigEl] ∧
    (handleStageMouseUp bigDragState).history
      = bigDragState.history.take (bigDragState.historyIndex + 1)
        ++ [bigDragState.elements ++ [bigEl]] ∧
    (handleStageMouseUp smallDragState).elements = smallDragState.elements ∧
    (handleStageMouseUp smallDragState).history = smallDragState.history := by
  have t1 : (Tool.rectangle = Tool.pencil) = False := eq_false (by decide)
  have t2 : (Tool.rectangle = Tool.arrow) = False := eq_false (by decide)
  have hdb : bigDragState.isDrawing = true := by
    norm_num [bigDragState, rectToolState, initialEditorState, handleStageMouseDown,
      handleStageMouseMove, t1, t2]
  have hcb : bigDragState.currentElement = some bigEl := by
    norm_num [bigDragState, rectToolState, initialEditorState, handleStageMouseDown,
      handleStageMouseMove, t1, t2, bigEl, toolName]
  have hds : smallDragState.isDrawing = true := by
    norm_num [smallDragState, rectToolState, initialEditorState, handleStageMouseDown,
      handleStageMouseMove, t1, t2]
  have hcs : smallDragState.currentElement = some smallEl := by
    norm_num [smallDragState, rectToolState, initialEditorState, handleStageMouseDown,
      handleStageMouseMove, t1, t2, smallEl, toolName]
  have hbig := mouseUp_commit_iff bigDragState bigEl hdb hcb
    (Or.inr (Or.inr (Or.inl rfl)))
  rw [if_pos (by norm_num [bigEl] :
    (5 : ℚ) < max (bigEl.width.getD 0) (bigEl.height.getD 0))] at hbig
  have hsmall := mouseUp_commit_iff smallDragState smallEl hds hcs
    (Or.inr (Or.inr (Or.inl rfl)))
  rw [if_neg (by norm_num [smallEl] :
    ¬ (5 : ℚ) < max (smallEl.width.getD 0) (smallEl.height.getD 0))] at hsmall
  exact ⟨hdb, hbig.2.2.1, hbig.2.2.2.1, hsmall.2.2.1, hsmall.2.2.2.1⟩

theorem record_history (s : EditorState) (X : List DrawingElement) :
    (record s X).history = s.history.take (s.historyIndex + 1) ++ [X] := rfl

theorem undo_history (s : EditorState) : (undo s).history = s.history := by
  unfold undo
  split <;> rfl

theorem undo_index (s : EditorState) (h : 0 < s.historyIndex) :
    (undo s).historyIndex = s.historyIndex - 1 := by
  unfold undo
  rw [if_pos h]

/-- C6: recording a snapshot after two undos truncates the redoable tail.
Starting from any state with a valid history index i, the sequence
record A; record B; undo; undo; record C yields the history equal to the
original prefix up to i followed by [C], with the index i+1 pointing at the
last entry, total length i+2 (the post-undo index plus two), the stack ending
with C, and redo a no-op forever after — A and B are unreachable. -/
theorem record_after_undo_truncates (s : EditorState)
    (A B C : List DrawingElement) (h : s.historyIndex < s.history.length) :
    (record (undo (undo (record (record s A) B))) C).history
      = s.history.take (s.historyIndex + 1) ++ [C] ∧
    (record (undo (undo (record (record s A) B))) C).historyIndex
      = s.historyIndex + 1 ∧
    (record (undo (undo (record (record s A) B))) C).history.length
      = s.historyIndex + 2 ∧
    (record (undo (undo (record (record s A) B))) C).history.getLast? = some C ∧
    (∀ n, redo^[n] (record (undo (undo (record (record s A) B))) C)
      = record (undo (undo (record (record s A) B))) C) := by
  have hlTlen : (s.history.take (s.historyIndex + 1)).length = s.historyIndex + 1 := by
    rw [List.length_take]
    omega
  have e1h : (record s A).history = s.history.take (s.historyIndex + 1) ++ [A] :=
    record_history s A
  have e1i : (record s A).historyIndex = s.historyIndex + 1 := by
    show (s.history.take (s.historyIndex + 1) ++ [A]).length - 1 = s.historyIndex + 1
    rw [List.length_append, hlTlen]
    rfl
  have e2h : (record (record s A) B).history
      = s.history.take (s.historyIndex + 1) ++ [A] ++ [B] := by
    show (record s A).history.take ((record s A).historyIndex + 1) ++ [B] = _
    rw [e1h, e1i, List.take_of_length_le (by rw [List.length_append, hlTlen]; rfl)]
  have e2i : (record (record s A) B).historyIndex = s.historyIndex + 2 := by
    show ((record s A).history.take ((record s A).historyIndex + 1) ++ [B]).length - 1 = _
    rw [e1h, e1i, List.take_of_length_le (by rw [List.length_append, hlTlen]; rfl),
      List.length_append, List.length_append, hlTlen]
    simp only [List.length_singleton]
    omega
  have e3i : (undo (record (record s A) B)).historyIndex = s.historyIndex + 1 := by
    rw [undo_index _ (by rw [e2i]; omega), e2i]
    omega
  have e4h : (undo (undo (record (record s A) B))).history
      = s.history.take (s.historyIndex + 1) ++ [A] ++ [B] := by
    rw [undo_history, undo_history, e2h]
  have e4i : (undo (undo (record (record s A) B))).historyIndex = s.historyIndex := by
    rw [undo_index _ (by rw [e3i]; omega), e3i]
    omega
  have htake : (s.history.take (s.historyIndex + 1) ++ [A] ++ [B]).take (s.historyIndex + 1)
      = s.history.take (s.historyIndex + 1) := by
    rw [List.append_assoc]
    exact List.take_left' hlTlen
  have e5h : (record (undo (undo (record (record s A) B))) C).history
      = s.history.take (s.historyIndex + 1) ++ [C] := by
    rw [record_history, e4h, e4i, htake]
  have e5i : (record (undo (undo (record (record s A) B))) C).historyIndex
      = s.historyIndex + 1 := by
    show ((undo (undo (record (record s A) B))).history.take
        ((undo (undo (record (record s A) B))).historyIndex + 1) ++ [C]).length - 1 = _
    rw [e4h, e4i, htake, List.length_append, hlTlen]
    simp only [List.length_singleton]
    omega
  have hlen : (record (undo (undo (record (record s A) B))) C).history.length
      = s.historyIndex + 2 := by
    rw [e5h, List.length_append, hlTlen]
    simp only [List.length_singleton]
  have hredo : redo (record (undo (undo (record (record s A) B))) C)
      = record (undo (undo (record (record s A) B))) C := by
    have hc : ¬ ((record (undo (undo (record (record s A) B))) C).historyIndex
        < (record (undo (undo (record (record s A) B))) C).history.length - 1) := by
      rw [e5i, hlen]
      omega
    unfold redo
    rw [if_neg hc]
  refine ⟨e5h, e5i, hlen, ?_, ?_⟩
  · rw [e5h, List.getLast?_concat]
  · intro n
    induction n with
    | zero => rfl
    | succ n ih => rw [Function.iterate_succ_apply', ih, hredo]

/-- Witness for C6 from the freshly initialized editor. -/
theorem record_after_undo_truncates_witness :
    (initialEditorState whiteBitmap).historyIndex
      < (initialEditorState whiteBitmap).history.length ∧
    (record (undo (undo (record (record (initialEditorState whiteBitmap)
      [redRect]) []))) [redRect]).history = [[], [redRect]] ∧
    (record (undo (undo (record (record (initialEditorState whiteBitmap)
      [redRect]) []))) [redRect]).historyIndex = 1 := by
  obtain ⟨hh, hi, -, -, -⟩ := record_after_undo_truncates (initialEditorState whiteBitmap)
    [redRect] [] [redRect] (by norm_num [initialEditorState])
  refine ⟨by norm_num [initialEditorState], ?_, ?_⟩
  · rw [hh]
    rfl
  · rw [hi]
    norm_num [initialEditorState]

/-- The invariant maintained by every committed mutation: the history index
is in range and the live element sequence equals the snapshot at the
index. -/
def HistoryInv (s : EditorState) : Prop :=
  s.historyIndex < s.history.length ∧ s.elements = s.history.getD s.historyIndex []

/-- A fresh editor satisfies the invariant. -/
theorem historyInv_initial (img : Bitmap) : HistoryInv (initialEditorState img) :=
  ⟨by norm_num [initialEditorState], rfl⟩

/-- Every committed mutation (the setElements-plus-addToHistory pattern)
establishes the invariant. -/
theorem historyInv_record (s : EditorState) (X : List DrawingElement) :
    HistoryInv (record s X) := by
  constructor
  · show (s.history.take (s.historyIndex + 1) ++ [X]).length - 1
      < (s.history.take (s.historyIndex + 1) ++ [X]).length
    rw [List.length_append, List.length_singleton]
    omega
  · show X = (s.history.take (s.historyIndex + 1) ++ [X]).getD
      ((s.history.take (s.historyIndex + 1) ++ [X]).length - 1) []
    rw [List.length_append, List.getD]
    rw [show (s.history.take (s.historyIndex + 1)).length + [X].length - 1
      = (s.history.take (s.historyIndex + 1)).length from by simp]
    rw [List.get?_append_right (le_refl _)]
    simp

/-- `undo` preserves the invariant. -/
theorem historyInv_undo (s : EditorState) (h : HistoryInv s) : HistoryInv (undo s) := by
  obtain ⟨hlen, hel⟩ := h
  unfold undo
  by_cases h0 : 0 < s.historyIndex
  · rw [if_pos h0]
    exact ⟨by show s.historyIndex - 1 < s.history.length; omega, rfl⟩
  · rw [if_neg h0]
    exact ⟨hlen, hel⟩

/-- `redo` preserves the invariant. -/
theorem historyInv_redo (s : EditorState) (h : HistoryInv s) : HistoryInv (redo s) := by
  obtain ⟨hlen, hel⟩ := h
  unfold redo
  by_cases h0 : s.historyIndex < s.history.length - 1
  · rw [if_pos h0]
    exact ⟨by show s.historyIndex + 1 < s.history.length; omega, rfl⟩
  · rw [if_neg h0]
    exact ⟨hlen, hel⟩

/-- C7: for every editor state satisfying the committed-mutation invariant
(which holds for every state reached from a fresh editor by committed
mutations, undos and redos) whose history index is positive, undo followed
immediately by redo restores the exact prior state: the element sequence,
the history stack and the index — indeed the whole editor state — are
unchanged. -/
theorem undo_redo_roundtrip (s : EditorState) (hInv : HistoryInv s)
    (h0 : 0 < s.historyIndex) : redo (undo s) = s := by
  obtain ⟨hlen, hel⟩ := hInv
  unfold undo redo
  rw [if_pos h0]
  have hc :
      ({ s with
         historyIndex := s.historyIndex - 1,
         elements := s.history.getD (s.historyIndex - 1) [] } : EditorState).historyIndex
      < ({ s with
         historyIndex := s.historyIndex - 1,
         elements := s.history.getD (s.historyIndex - 1) [] }
          : EditorState).history.length - 1 := by
    show s.historyIndex - 1 < s.history.length - 1
    omega
  rw [if_pos hc]
  have hidx : s.historyIndex - 1 + 1 = s.historyIndex := by omega
  show ({ s with
          historyIndex := s.historyIndex - 1 + 1,
          elements := s.history.getD (s.historyIndex - 1 + 1) [] } : EditorState) = s
  rw [hidx, ← hel]

/-- A concrete state produced by one committed mutation. -/
def c7State : EditorState := record (initialEditorState whiteBitmap) [redRect]

/-- Witness for C7 at the concrete one-mutation state. -/
theorem undo_redo_roundtrip_witness :
    0 < c7State.historyIndex ∧ redo (undo c7State) = c7State := by
  have hInv : HistoryInv c7State := historyInv_record (initialEditorState whiteBitmap) [redRect]
  have h0 : 0 < c7State.historyIndex := by norm_num [c7State, record, addToHistory,
    initialEditorState]
  exact ⟨h0, undo_redo_roundtrip c7State hInv h0⟩

/-- C8 (amended): the history stack starts as a single empty snapshot, and
the committing document mutations — element property update (with its
saveToHistory default), drag end, element delete, and transform end — each
push exactly one snapshot (truncating any redoable tail first), while
intermediate pointer moves (drawing and crop) push none; the element-add
commit on pointer release pushes exactly one (see the C5 theorem).  Toggling
an element's visibility, however, mutates the document WITHOUT pushing a
snapshot: it bypasses addToHistory. -/
theorem history_discipline (img : Bitmap) (s : EditorState) (pos : Pos)
    (id : String) (patch : DrawingElement → DrawingElement) (nx ny sx sy : ℚ) :
    (initialEditorState img).history = [[]] ∧
    (initialEditorState img).historyIndex = 0 ∧
    (handleStageMouseMove pos s).history = s.history ∧
    (handleStageMouseMove pos s).historyIndex = s.historyIndex ∧
    (handleCropMouseMove pos s).history = s.history ∧
    (updateElementProperty id patch true s).history
      = s.history.take (s.historyIndex + 1)
        ++ [(updateElementProperty id patch true s).elements] ∧
    (deleteElement id s).history
      = s.history.take (s.historyIndex + 1) ++ [(deleteElement id s).elements] ∧
    (handleTransformEnd id nx ny sx sy s).history
      = s.history.take (s.historyIndex + 1)
        ++ [(handleTransformEnd id nx ny sx sy s).elements] ∧
    (handleDragEnd id nx ny s).history
      = s.history.take (s.historyIndex + 1) ++ [(handleDragEnd id nx ny s).elements] ∧
    (toggleVisibility id s).history = s.history ∧
    (toggleVisibility id s).historyIndex = s.historyIndex := by
  refine ⟨rfl, rfl, ?_, ?_, ?_, rfl, ?_, rfl, rfl, rfl, rfl⟩
  · unfold handleStageMouseMove
    split
    · rfl
    · split
      · rfl
      · split <;> rfl
  · unfold handleStageMouseMove
    split
    · rfl
    · split
      · rfl
      · split <;> rfl
  · unfold handleCropMouseMove
    split
    · rfl
    · split <;> rfl
  · unfold deleteElement
    dsimp only
    split <;> rfl

/-- An editor state to exercise the visibility toggle. -/
def toggleTestState : EditorState :=
  { initialEditorState whiteBitmap with
    elements := [redRect], history := [[], [redRect]], historyIndex := 1 }

/-- C8 counterexample: toggling an element's visibility changes the element
sequence — it is a committed mutation of the document — yet appends no
history snapshot and leaves the index unchanged, so not every committed
mutation pushes a snapshot. -/
theorem toggleVisibility_no_snapshot_counterexample :
    ¬ (toggleVisibility "element-1" toggleTestState).elements
      = toggleTestState.elements ∧
    (toggleVisibility "element-1" toggleTestState).history = toggleTestState.history ∧
    (toggleVisibility "element-1" toggleTestState).historyIndex
      = toggleTestState.historyIndex := by
  refine ⟨?_, rfl, rfl⟩
  intro h
  have h1 : (toggleVisibility "element-1" toggleTestState).elements
      = [{ redRect with visible := false }] := rfl
  rw [h1] at h
  have h2 : toggleTestState.elements = [redRect] := rfl
  rw [h2] at h
  have h3 : ({ redRect with visible := false } : DrawingElement).visible
      = redRect.visible := by
    rw [List.cons.injEq] at h
    rw [h.1]
  simp [redRect] at h3

end ScreenshotEditor
